import Mathlib

/-
Verification of the doc-processor markdown-to-Word conversion engine
(src/implementations/doc-processor/src/index.ts).

The TypeScript source is embedded shallowly:
- strings are processed through explicit List Char helpers so that every
  definition is executable and kernel-reducible;
- the JavaScript regular expressions of preprocessMarkdown are translated
  to explicit character scans with the same matching semantics on
  newline-free lines (JS \s and String.prototype.trim additionally accept
  some exotic Unicode spaces; only ASCII whitespace is modelled);
- docx objects (TextRun, Paragraph, Table, Document) become plain
  structures holding exactly the attributes the source sets;
- the external docx helper convertInchesToTwip is modelled exactly on
  rational inputs given in hundredths of an inch (the source only ever
  passes such constants); the float rounding of the JS double type is not
  modelled, as no proved statement depends on twip values;
- the marked tokenizer is an external black-box collaborator; where a
  claim needs its output on a concrete input, that output is modelled
  from the spec (see tokenizeSample).
-/

namespace DocProcessor

/-! ## String toolkit (explicit List Char versions of the JS operations) -/

/-- ASCII whitespace, the fragment of the JS \s class exercised here. -/
def isWs (c : Char) : Bool :=
  c = ' ' || c = '\t' || c = '\r' || c = '\n' || c = '\x0b' || c = '\x0c'

/-- JS String.prototype.trim on the character list. -/
def trimChars (cs : List Char) : List Char :=
  ((cs.dropWhile isWs).reverse.dropWhile isWs).reverse

/-- JS String.prototype.trim. -/
def trimStr (s : String) : String := ⟨trimChars s.data⟩

/-- JS text.split with separator a single newline, on the character list. -/
def splitLinesList : List Char → List (List Char)
  | [] => [[]]
  | c :: cs =>
    if c = '\n' then [] :: splitLinesList cs
    else
      match splitLinesList cs with
      | l :: ls => (c :: l) :: ls
      | [] => [[c]]

/-- JS lines.join with separator a single newline, on character lists. -/
def joinLinesList : List (List Char) → List Char
  | [] => []
  | [l] => l
  | l :: ls => l ++ '\n' :: joinLinesList ls

/-- JS text.split with a single newline separator. -/
def splitLines (s : String) : List String :=
  (splitLinesList s.data).map (fun l => ⟨l⟩)

/-- JS lines.join with a single newline separator. -/
def joinLines (ls : List String) : String :=
  ⟨joinLinesList (ls.map String.data)⟩

/-- JS String.prototype.startsWith (the arguments used are ASCII, so the
UTF-16 view of the JS source and the character view agree). -/
def strStartsWith (s p : String) : Bool := p.data.isPrefixOf s.data

/-- JS String.prototype.substring from a character index to the end. -/
def strDrop (s : String) (n : Nat) : String := ⟨s.data.drop n⟩

/-- JS String.prototype.length for the ASCII strings measured here. -/
def strLen (s : String) : Nat := s.data.length

/-- JS parseInt on a nonempty decimal digit string. -/
def natOfDigits (ds : List Char) : Nat :=
  ds.foldl (fun a c => a * 10 + (c.toNat - '0'.toNat)) 0

/-! ## Style table (STYLES, lines 76-94) -/

/-- One entry of the DocStyles table: font name, size, and the optional
bold flag that only the h3 entry carries. -/
structure Style where
  font : String
  size : Nat
  bold : Option Bool
  deriving DecidableEq, Repr

/-- The four-entry style sheet. -/
structure DocStyles where
  normal : Style
  h1 : Style
  h2 : Style
  h3 : Style
  deriving DecidableEq, Repr

/-- STYLES constant (lines 76-94 of the source). -/
def STYLES : DocStyles :=
  { normal := { font := "仿宋_GB2312", size := 32, bold := none }
  , h1 := { font := "小标宋体", size := 36, bold := none }
  , h2 := { font := "楷体_GB2312", size := 32, bold := none }
  , h3 := { font := "仿宋_GB2312", size := 32, bold := some true } }

/-- getHeadingStyle (lines 684-695). -/
def getHeadingStyle (level : Nat) : Style :=
  match level with
  | 1 => STYLES.h1
  | 2 => STYLES.h2
  | 3 => STYLES.h3
  | _ => STYLES.normal

/-! ## docx object model (the attributes the source sets) -/

/-- A docx TextRun as constructed by the source: text, optional font,
size and color, the three boolean emphasis flags, and the break count
used inside code blocks. -/
structure TextRun where
  text : String
  font : Option String
  size : Option Nat
  color : Option String
  bold : Bool
  italics : Bool
  strike : Bool
  brk : Nat
  deriving DecidableEq, Repr

/-- A TextRun with every option off; source constructions override the
fields they pass explicitly. -/
def emptyRun : TextRun :=
  { text := "", font := none, size := none, color := none
  , bold := false, italics := false, strike := false, brk := 0 }

/-- A docx Paragraph option object as constructed by the source. -/
structure ParaProps where
  children : List TextRun
  heading : Option Nat
  alignment : Option String
  lineSpacing : Option Nat
  lineRule : Option String
  spacingBefore : Option Nat
  spacingAfter : Option Nat
  indentLeft : Option Nat
  indentRight : Option Nat
  indentFirstLine : Option Nat
  indentHanging : Option Nat
  borderLeft : Bool
  deriving DecidableEq, Repr

/-- A Paragraph with no options set. -/
def emptyPara : ParaProps :=
  { children := [], heading := none, alignment := none
  , lineSpacing := none, lineRule := none
  , spacingBefore := none, spacingAfter := none
  , indentLeft := none, indentRight := none
  , indentFirstLine := none, indentHanging := none
  , borderLeft := false }

/-- The cell contents of the docx Table built by createTableFromMarkdown:
one styled run per cell (header cells bold and centered in the source). -/
structure TableData where
  headerCells : List TextRun
  rowCells : List (List TextRun)
  deriving DecidableEq, Repr

/-- A rendered block: the elements appended to the document section. -/
inductive Block where
  | para (p : ParaProps)
  | table (t : TableData)
  deriving DecidableEq, Repr

/-- Modelled from the spec: the external docx helper convertInchesToTwip,
evaluated exactly on its argument expressed in hundredths of an inch
(1 inch = 1440 twips; the source only passes the constants 0.02, 0.05,
0.1, 0.15, 0.2, 0.29, 0.3, 0.5 and 0.3 times a small integer). -/
def convertInchesToTwip100 (inch100 : Nat) : Nat := inch100 * 1440 / 100

/-! ## Inline run parser (parseInlineContent, lines 403-475) -/

/-- The run pushed by addCurrentText for a nonempty buffer, under the
four toggles (lines 411-424). -/
def mkInlineRun (acc : List Char) (st em del code : Bool) : TextRun :=
  { text := ⟨acc⟩
  , font := some (if code then "Courier New" else STYLES.normal.font)
  , size := some (if code then 24 else STYLES.normal.size)
  , color := some "000000"
  , bold := st, italics := em, strike := del, brk := 0 }

/-- addCurrentText: push the buffered text as a run when nonempty. -/
def flushRun (acc : List Char) (st em del code : Bool) (k : List TextRun) :
    List TextRun :=
  if acc = [] then k else mkInlineRun acc st em del code :: k

/-- The character scan of parseInlineContent. The match arms are in the
exact order of the source tests: backtick, triple star, double star,
double tilde, single star (the single-star arm is reached precisely when
the next character is not a star, as in the source guard), default
accumulate. -/
def parseInlineAux : List Char → List Char → Bool → Bool → Bool → Bool →
    List TextRun
  | [], acc, st, em, del, code => flushRun acc st em del code []
  | '`' :: rest, acc, st, em, del, code =>
    flushRun acc st em del code (parseInlineAux rest [] st em del (!code))
  | '*' :: '*' :: '*' :: rest, acc, st, em, del, code =>
    flushRun acc st em del code (parseInlineAux rest [] (!st) (!em) del code)
  | '*' :: '*' :: rest, acc, st, em, del, code =>
    flushRun acc st em del code (parseInlineAux rest [] (!st) em del code)
  | '~' :: '~' :: rest, acc, st, em, del, code =>
    flushRun acc st em del code (parseInlineAux rest [] st em (!del) code)
  | '*' :: rest, acc, st, em, del, code =>
    flushRun acc st em del code (parseInlineAux rest [] st (!em) del code)
  | c :: rest, acc, st, em, del, code =>
    parseInlineAux rest (acc ++ [c]) st em del code

/-- parseInlineContent (lines 403-475). -/
def parseInlineContent (content : String) : List TextRun :=
  parseInlineAux content.data [] false false false false

/-! ## Nested-list normalizer (preprocessMarkdown, lines 477-519) -/

/-- The JS regular expression test and first capture of
trimmedLine.match with pattern caret (\d+)\.\s+\*\*(.+)\*\*dollar (line 491):
a maximal nonempty leading digit run, a literal dot, a maximal nonempty
whitespace run, then a region that starts and ends with two stars and has
at least one dot-matchable character between them. Returns the parseInt
value of the digit capture. Lines contain no newline; the dot class also
excludes carriage return, which the middle check reproduces. -/
def mainListMatch (s : String) : Option Nat :=
  let cs := s.data
  let ds := cs.takeWhile Char.isDigit
  if ds = [] then none
  else
    match cs.drop ds.length with
    | '.' :: rest2 =>
      let ws := rest2.takeWhile isWs
      if ws = [] then none
      else
        let r := rest2.drop ws.length
        let mid := ((r.drop 2).reverse.drop 2).reverse
        if r.take 2 = ['*', '*'] ∧ r.reverse.take 2 = ['*', '*'] ∧
            5 ≤ r.length ∧ mid.all (fun c => !(c = '\n' || c = '\r')) then
          some (natOfDigits ds)
        else none
    | _ => none

/-- The JS regular expression test and first capture of
trimmedLine.match with pattern caret -\s+(.+)dollar (line 494): a dash,
a maximal nonempty whitespace run, then at least one remaining
dot-matchable character; the capture is the remainder. -/
def nestedDashMatch (s : String) : Option String :=
  match s.data with
  | '-' :: rest =>
    let ws := rest.takeWhile isWs
    if ws = [] then none
    else
      let r := rest.drop ws.length
      if r = [] then none
      else if r.all (fun c => !(c = '\n' || c = '\r')) then some ⟨r⟩
      else none
  | _ => none

/-- The line loop of preprocessMarkdown (lines 486-516), threading the
currentMainListItem and processingNestedList variables. The boolean flag
never influences the emitted lines; it is kept for fidelity. -/
def preprocessLinesAux : List String → Option Nat → Bool → List String
  | [], _, _ => []
  | line :: rest, cur, nested =>
    let trimmed := trimStr line
    match mainListMatch trimmed with
    | some n => line :: preprocessLinesAux rest (some n) false
    | none =>
      match nestedDashMatch trimmed, cur with
      | some txt, some m =>
        ("   - " ++ txt) :: preprocessLinesAux rest (some m) true
      | _, _ =>
        if trimmed = "" then line :: preprocessLinesAux rest cur false
        else line :: preprocessLinesAux rest cur nested

/-- preprocessMarkdown (lines 477-519). -/
def preprocessMarkdown (markdown : String) : String :=
  joinLines (preprocessLinesAux (splitLines markdown) none false)

/-! ## Token model (the MarkedToken shape consumed by createWordDoc) -/

mutual
/-- The marked token variants the renderer dispatches on; space stands
for every token kind without a case in the switch (skipped silently). -/
inductive MToken : Type where
  | heading : Nat → String → MToken
  | paragraph : String → MToken
  | code : String → MToken
  | table : List String → List (List String) → MToken
  | list : Bool → Option Nat → List MItem → MToken
  | blockquote : List MToken → MToken
  | hr : MToken
  | space : MToken
/-- A list item: its raw text and its nested tokens. -/
inductive MItem : Type where
  | mk : String → List MToken → MItem
end

/-- Whether a token is a list token (the type === list test). -/
def MToken.isList : MToken → Bool
  | .list _ _ _ => true
  | _ => false

/-! ## List renderer (createListItemParagraph and processNestedList) -/

/-- createListItemParagraph (lines 289-319). The source passes index
only for ordered items (undefined otherwise); the parameter is unused
when ordered is false. -/
def createListItemParagraph (text : String) (level : Nat) (ordered : Bool)
    (index : Nat) : Block :=
  let bullet := if ordered then toString index ++ ". " else "• "
  let runs := parseInlineContent (trimStr text)
  Block.para { emptyPara with
    children :=
      { emptyRun with
        text := bullet
      , font := some STYLES.normal.font
      , size := some STYLES.normal.size
      , color := some "000000"
      , bold := ordered } :: runs
  , indentLeft := some (convertInchesToTwip100 (30 * (level + 1)))
  , indentHanging := some (if ordered then convertInchesToTwip100 30
                           else convertInchesToTwip100 20)
  , lineSpacing := some 360
  , lineRule := some "exact"
  , spacingBefore := some (if 0 < level then convertInchesToTwip100 2
                           else convertInchesToTwip100 5)
  , spacingAfter := some (if 0 < level then convertInchesToTwip100 2
                          else convertInchesToTwip100 5) }

mutual
/-- processNestedList (lines 326-371) on its list-token argument; the
children accumulator of the source becomes the returned block list, in
the same order. -/
def processNestedList (tok : MToken) (level : Nat) (parentBullet : String) :
    List Block :=
  match tok with
  | .list ordered start items =>
    processListItems ordered (start.getD 1) items level parentBullet
  | _ => []
/-- The item loop of processNestedList: paragraph emission with the
duplicated-marker strip (lines 333-353), currentBullet computation and
index increment (lines 356-359), then recursion into nested list tokens
(lines 362-369). -/
def processListItems (ordered : Bool) (index : Nat) (items : List MItem)
    (level : Nat) (parentBullet : String) : List Block :=
  match items with
  | [] => []
  | .mk itemText itemTokens :: rest =>
    let para : List Block :=
      if trimStr itemText = "" then []
      else
        let displayText :=
          if 0 < level ∧ parentBullet ≠ "" ∧
              strStartsWith itemText parentBullet = true then
            trimStr (strDrop itemText (strLen parentBullet))
          else itemText
        [createListItemParagraph displayText level ordered index]
    let currentBullet := if ordered then toString index ++ ". " else ""
    let index2 := if ordered then index + 1 else index
    para ++ processSubTokens itemTokens (level + 1) currentBullet
      ++ processListItems ordered index2 rest level parentBullet
/-- The sub-token loop: recurse into list tokens only. -/
def processSubTokens (toks : List MToken) (level : Nat) (bullet : String) :
    List Block :=
  match toks with
  | [] => []
  | t :: ts =>
    (match t with
     | .list _ _ _ => processNestedList t level bullet
     | _ => []) ++ processSubTokens ts level bullet
end

/-! ## Block renderer (createWordDoc dispatch, lines 521-682) -/

/-- createTableFromMarkdown (lines 243-287): header cells bold and
centered, body cells plain, all in the normal font. -/
def createTableFromMarkdown (header : List String)
    (rows : List (List String)) : Block :=
  Block.table
    { headerCells := header.map (fun cell =>
        { emptyRun with
          text := cell
        , font := some STYLES.normal.font
        , size := some STYLES.normal.size
        , color := some "000000"
        , bold := true })
    , rowCells := rows.map (fun row => row.map (fun cell =>
        { emptyRun with
          text := cell
        , font := some STYLES.normal.font
        , size := some STYLES.normal.size
        , color := some "000000" })) }

/-- createBlockquoteParagraph (lines 373-401). -/
def createBlockquoteParagraph (text : String) : Block :=
  Block.para { emptyPara with
    children := [{ emptyRun with
      text := text
    , font := some STYLES.normal.font
    , size := some STYLES.normal.size
    , color := some "000000"
    , italics := true }]
  , indentLeft := some (convertInchesToTwip100 50)
  , indentRight := some (convertInchesToTwip100 50)
  , lineSpacing := some 360
  , spacingBefore := some (convertInchesToTwip100 10)
  , spacingAfter := some (convertInchesToTwip100 10)
  , borderLeft := true }

/-- The monospace run for one line of a code block (lines 610-615). -/
def codeLineRun (l : String) : TextRun :=
  { emptyRun with
    text := l
  , font := some "Courier New"
  , size := some 24
  , color := some "000000" }

/-- The explicit line-break run between code lines (line 616). -/
def codeBreakRun : TextRun := { emptyRun with brk := 1 }

/-- The runs of a code block (lines 608-617): one monospace run per
line, with an explicit break run between consecutive lines. -/
def codeRunsOf : List String → List TextRun
  | [] => []
  | [l] => [codeLineRun l]
  | l :: rest => codeLineRun l :: codeBreakRun :: codeRunsOf rest

/-- One iteration of the token switch of createWordDoc (lines 534-672);
a token kind without a case (space) contributes nothing. -/
def renderToken (tok : MToken) : List Block :=
  match tok with
  | .heading depth text =>
    let style := getHeadingStyle depth
    let spacers : List Block :=
      if depth = 1 then
        [Block.para { emptyPara with
          spacingBefore := some (convertInchesToTwip100 30) }]
      else if depth = 2 then
        [Block.para { emptyPara with
          spacingBefore := some (convertInchesToTwip100 15)
        , spacingAfter := some (convertInchesToTwip100 15) }]
      else []
    let headingLevel := if 1 ≤ depth ∧ depth ≤ 6 then depth else 1
    spacers ++
      [Block.para { emptyPara with
        heading := some headingLevel
      , spacingBefore := some (if depth = 1 then convertInchesToTwip100 50
                               else 0)
      , spacingAfter := some (if depth = 1 then convertInchesToTwip100 30
                              else 0)
      , children := [{ emptyRun with
          text := text
        , font := some style.font
        , size := some style.size
        , color := some "000000"
        , bold := style.bold.getD false }] }]
  | .paragraph text =>
    [Block.para { emptyPara with
      children := parseInlineContent text
    , lineSpacing := some 560
    , lineRule := some "exact"
    , alignment := some "both"
    , indentFirstLine := some (convertInchesToTwip100 29) }]
  | .code text =>
    [Block.para { emptyPara with
      children := codeRunsOf (splitLines text)
    , spacingBefore := some (convertInchesToTwip100 20)
    , spacingAfter := some (convertInchesToTwip100 20)
    , alignment := some "left"
    , indentLeft := some (convertInchesToTwip100 50) }]
  | .table header rows => [createTableFromMarkdown header rows]
  | .list o s items => processNestedList (.list o s items) 0 ""
  | .blockquote toks =>
    toks.filterMap (fun q =>
      match q with
      | .paragraph t => some (createBlockquoteParagraph t)
      | _ => none)
  | .hr =>
    [Block.para { emptyPara with
      children := [{ emptyRun with
        text := ⟨List.replicate 50 '─'⟩, color := some "000000" }]
    , alignment := some "center"
    , spacingBefore := some (convertInchesToTwip100 20)
    , spacingAfter := some (convertInchesToTwip100 20) }]
  | .space => []

/-- The children sequence assembled by createWordDoc from a token
stream (the loop of lines 534-672, in token order). -/
def createWordDocChildren (tokens : List MToken) : List Block :=
  (tokens.map renderToken).flatten

/-- The docx Document: a list of sections, each a block sequence. -/
structure WordDocument where
  sections : List (List Block)
  deriving DecidableEq, Repr

/-- createWordDoc (lines 521-682) given the token stream the external
tokenizer returned for the preprocessed markdown: a single section
holding exactly the rendered children in order (lines 674-681). -/
def createWordDoc (tokens : List MToken) : WordDocument :=
  { sections := [createWordDocChildren tokens] }

/-! ## Operation handlers (lines 192-241) -/

/-- The MCP error kinds raised by the handlers. -/
inductive ErrCode where
  | invalidParams
  | internalError
  deriving DecidableEq, Repr

/-- The observable pipeline steps of a handler call, in order: the
source read, the conversion of the markdown content, the recursive
creation of the output directory and the byte write of saveWordDocument
(lines 697-702). -/
inductive Effect where
  | readFile (p : String)
  | renderMarkdown (md : String)
  | mkdirParent (p : String)
  | writeFile (p : String)
  deriving DecidableEq, Repr

/-- JS truthiness on an optional string argument: undefined and the
empty string are both falsy. -/
def falsyArg : Option String → Bool
  | none => true
  | some s => s = ""

/-- The outcome of a handler call: the returned value or raised error
kind, and the trace of pipeline effects that ran. -/
structure HandlerOutcome where
  result : Except ErrCode String
  trace : List Effect
  deriving Repr

/-- handleMarkdownToWord (lines 192-216). The filesystem read is the
injected readFileFn (none models a read failure, wrapped into an
internal error); the serializer and the write are modelled as
succeeding, since every claim proved about this handler concerns the
parameter guard, which runs before any collaborator call. -/
def handleMarkdownToWord (readFileFn : String → Option String)
    (markdownPath outputPath : Option String) : HandlerOutcome :=
  if falsyArg markdownPath || falsyArg outputPath then
    { result := Except.error ErrCode.invalidParams, trace := [] }
  else
    let mp := markdownPath.getD ""
    let op := outputPath.getD ""
    match readFileFn mp with
    | none =>
      { result := Except.error ErrCode.internalError
      , trace := [Effect.readFile mp] }
    | some content =>
      { result := Except.ok ("成功将Markdown文件转换为Word文档: " ++ op)
      , trace := [Effect.readFile mp, Effect.renderMarkdown content
                 , Effect.mkdirParent op, Effect.writeFile op] }

/-- handleWriteMarkdownToWord (lines 218-241). -/
def handleWriteMarkdownToWord (content outputPath : Option String) :
    HandlerOutcome :=
  if falsyArg content || falsyArg outputPath then
    { result := Except.error ErrCode.invalidParams, trace := [] }
  else
    let c := content.getD ""
    let op := outputPath.getD ""
    { result := Except.ok ("成功创建Word文档: " ++ op)
    , trace := [Effect.renderMarkdown c
               , Effect.mkdirParent op, Effect.writeFile op] }

/-! ## Sample pipeline input (for the end-to-end claim) -/

/-- The end-to-end sample input of the spec. -/
def sampleInput : String := "# Title\n\nHello **world**.\n"

/-- Modelled from the spec: the output of the external marked tokenizer
(a black-box collaborator, spec sections 2 and 6, not part of this
repository) on the preprocessed sample input, which equals sampleInput:
a depth-1 heading token with text Title, a blank-space token with no
case in the renderer switch, and a paragraph token whose raw text is
Hello **world**. with the inline markers intact. -/
def tokenizeSample : List MToken :=
  [MToken.heading 1 "Title", MToken.space,
   MToken.paragraph "Hello **world**."]

/-- The block sequence produced by the full pipeline on sampleInput. -/
def sampleBlocks : List Block := createWordDocChildren tokenizeSample

/-! ## Observation helpers for the theorems -/

/-- The styled runs of a block (empty for a table). -/
def blockRuns : Block → List TextRun
  | .para p => p.children
  | .table _ => []

/-- The text of the first run of a block, when there is one. -/
def firstRunText (b : Block) : Option String :=
  (blockRuns b).head?.map TextRun.text

/-! ## Shared lemmas -/

/-- Appending the dot-space tail of a list marker never yields the empty
string. -/
theorem append_dot_space_ne_empty (s : String) : s ++ ". " ≠ "" := by
  intro h
  have h2 : (s ++ ". ").data = "".data := by rw [h]
  have h3 : s.data ++ ['.', ' '] = [] := h2
  simp at h3

/-- Splitting on newlines always yields at least one line. -/
theorem splitLinesList_ne_nil (cs : List Char) : splitLinesList cs ≠ [] := by
  cases cs with
  | nil => simp [splitLinesList]
  | cons c cs =>
    simp only [splitLinesList]
    split
    · simp
    · split <;> simp

/-- Joining the newline split of a character list recovers the list. -/
theorem joinLinesList_splitLinesList : ∀ cs : List Char,
    joinLinesList (splitLinesList cs) = cs
  | [] => rfl
  | c :: cs => by
    have ih := joinLinesList_splitLinesList cs
    by_cases hc : c = '\n'
    · subst hc
      simp only [splitLinesList, if_pos rfl]
      obtain ⟨k, ks, hk⟩ : ∃ k ks, splitLinesList cs = k :: ks := by
        cases h : splitLinesList cs with
        | nil => exact absurd h (splitLinesList_ne_nil cs)
        | cons k ks => exact ⟨k, ks, rfl⟩
      rw [hk] at ih ⊢
      simp only [joinLinesList, List.nil_append]
      rw [ih]
    · simp only [splitLinesList, if_neg hc]
      cases h : splitLinesList cs with
      | nil => exact absurd h (splitLinesList_ne_nil cs)
      | cons k ks =>
        rw [h] at ih
        cases ks with
        | nil =>
          simp only [joinLinesList] at ih ⊢
          rw [ih]
        | cons a as =>
          simp only [joinLinesList] at ih ⊢
          rw [List.cons_append, ih]

/-- Joining the newline split of a string recovers the string. -/
theorem joinLines_splitLines (s : String) : joinLines (splitLines s) = s := by
  unfold joinLines splitLines
  rw [List.map_map]
  have h : (String.data ∘ fun l : List Char => (⟨l⟩ : String)) = id := rfl
  rw [h, List.map_id, joinLinesList_splitLinesList]

/-- When no line matches the main-item pattern, the line loop of the
normalizer emits every line unchanged: the active item number starts
unset and is only ever set by a main-item match, so the dash rewrite
never fires. -/
theorem preprocessLinesAux_id : ∀ (ls : List String) (b : Bool),
    (∀ l ∈ ls, mainListMatch (trimStr l) = none) →
    preprocessLinesAux ls none b = ls
  | [], _, _ => rfl
  | line :: rest, b, h => by
    have hl : mainListMatch (trimStr line) = none := h line (by simp)
    have hrest : ∀ l ∈ rest, mainListMatch (trimStr l) = none :=
      fun l hm => h l (by simp [hm])
    cases hnd : nestedDashMatch (trimStr line) <;>
      simp only [preprocessLinesAux, hl, hnd] <;>
      split <;>
      exact congrArg (line :: ·) (preprocessLinesAux_id rest _ hrest)

/-- When no line matches the main-item pattern, the normalizer is the
identity. -/
theorem preprocessMarkdown_id (md : String)
    (h : ∀ l ∈ splitLines md, mainListMatch (trimStr l) = none) :
    preprocessMarkdown md = md := by
  unfold preprocessMarkdown
  rw [preprocessLinesAux_id _ _ h, joinLines_splitLines]

/-- Sub-token lists containing no list token contribute no blocks. -/
theorem processSubTokens_eq_nil : ∀ (toks : List MToken) (lvl : Nat)
    (b : String), (∀ t ∈ toks, t.isList = false) →
    processSubTokens toks lvl b = []
  | [], _, _, _ => rfl
  | t :: ts, lvl, b, h => by
    have ht : t.isList = false := h t (by simp)
    have hts : ∀ u ∈ ts, u.isList = false :=
      fun u hu => h u (by simp [hu])
    have ih := processSubTokens_eq_nil ts lvl b hts
    cases t <;> simp_all [processSubTokens, MToken.isList]

/-! ## Claims -/

/-- C1 counterexample: on the sample input the pipeline leaves the
markdown unchanged through the normalizer, and the rendered block
sequence has three blocks, not the two the claim states: the renderer
pushes a blank spacer paragraph before every depth-1 heading. -/
theorem end_to_end_two_blocks_refuted :
    preprocessMarkdown sampleInput = sampleInput
    ∧ sampleBlocks.length = 3
    ∧ ¬ sampleBlocks.length = 2 := by
  refine ⟨by decide, by decide, by decide⟩

/-- C1 (amended): converting the sample input produces exactly three
blocks — a blank spacer paragraph, a title-styled heading paragraph,
and a body paragraph whose second styled run has bold true and text
world. The equality spells every attribute; the final two conjuncts
restate the title font and the bold second run directly. -/
theorem end_to_end_three_blocks :
    preprocessMarkdown sampleInput = sampleInput
    ∧ sampleBlocks =
      [Block.para { emptyPara with
          spacingBefore := some (convertInchesToTwip100 30) },
       Block.para { emptyPara with
          heading := some 1
        , spacingBefore := some (convertInchesToTwip100 50)
        , spacingAfter := some (convertInchesToTwip100 30)
        , children := [{ emptyRun with
            text := "Title"
          , font := some STYLES.h1.font
          , size := some STYLES.h1.size
          , color := some "000000" }] },
       Block.para { emptyPara with
          children :=
            [{ emptyRun with
               text := "Hello "
             , font := some STYLES.normal.font
             , size := some STYLES.normal.size
             , color := some "000000" },
             { emptyRun with
               text := "world"
             , font := some STYLES.normal.font
             , size := some STYLES.normal.size
             , color := some "000000"
             , bold := true },
             { emptyRun with
               text := "."
             , font := some STYLES.normal.font
             , size := some STYLES.normal.size
             , color := some "000000" }]
        , lineSpacing := some 560
        , lineRule := some "exact"
        , alignment := some "both"
        , indentFirstLine := some (convertInchesToTwip100 29) }]
    ∧ ((blockRuns (sampleBlocks.getD 1 (Block.para emptyPara))).getD 0
        emptyRun).font = some STYLES.h1.font
    ∧ ((blockRuns (sampleBlocks.getD 2 (Block.para emptyPara))).getD 1
        emptyRun).bold = true
    ∧ ((blockRuns (sampleBlocks.getD 2 (Block.para emptyPara))).getD 1
        emptyRun).text = "world" := by
  refine ⟨by decide, by decide, by decide, by decide, by decide⟩

/-- C2: the normalizer maps the targeted input to exactly the claimed
output: the main-item line unchanged and each dash line with three
leading spaces before the dash. -/
theorem preprocess_targeted_case :
    preprocessMarkdown "1. **Step**\n- sub a\n- sub b\n"
      = "1. **Step**\n   - sub a\n   - sub b\n" := by decide

/-- C3: the inline run parser maps each of the five spec inputs to
exactly one run with the stated styling, including the unterminated
bold input, with no error. -/
theorem inline_marker_balance :
    parseInlineContent "**bold**"
      = [{ emptyRun with
           text := "bold"
         , font := some STYLES.normal.font
         , size := some STYLES.normal.size
         , color := some "000000"
         , bold := true }]
    ∧ parseInlineContent "*it*"
      = [{ emptyRun with
           text := "it"
         , font := some STYLES.normal.font
         , size := some STYLES.normal.size
         , color := some "000000"
         , italics := true }]
    ∧ parseInlineContent "***both***"
      = [{ emptyRun with
           text := "both"
         , font := some STYLES.normal.font
         , size := some STYLES.normal.size
         , color := some "000000"
         , bold := true
         , italics := true }]
    ∧ parseInlineContent "`code`"
      = [{ emptyRun with
           text := "code"
         , font := some "Courier New"
         , size := some 24
         , color := some "000000" }]
    ∧ parseInlineContent "**open"
      = [{ emptyRun with
           text := "open"
         , font := some STYLES.normal.font
         , size := some STYLES.normal.size
         , color := some "000000"
         , bold := true }] := by
  refine ⟨by decide, by decide, by decide, by decide, by decide⟩

/-- C4: an ordered list token with start 5 and three items of nonempty
trimmed text, none of whose sub-tokens is a nested list, renders exactly
three paragraphs in document order whose first runs are the literal
markers 5., 6. and 7. followed by a space. -/
theorem ordered_list_start_five_markers (t1 t2 t3 : String)
    (k1 k2 k3 : List MToken)
    (h1 : trimStr t1 ≠ "") (h2 : trimStr t2 ≠ "") (h3 : trimStr t3 ≠ "")
    (n1 : ∀ t ∈ k1, t.isList = false) (n2 : ∀ t ∈ k2, t.isList = false)
    (n3 : ∀ t ∈ k3, t.isList = false) :
    processNestedList
        (MToken.list true (some 5)
          [MItem.mk t1 k1, MItem.mk t2 k2, MItem.mk t3 k3]) 0 ""
      = [createListItemParagraph t1 0 true 5,
         createListItemParagraph t2 0 true 6,
         createListItemParagraph t3 0 true 7]
    ∧ firstRunText (createListItemParagraph t1 0 true 5) = some "5. "
    ∧ firstRunText (createListItemParagraph t2 0 true 6) = some "6. "
    ∧ firstRunText (createListItemParagraph t3 0 true 7) = some "7. " := by
  refine ⟨?_, ?_, ?_, ?_⟩
  · rw [processNestedList]
    simp only [Option.getD, processListItems,
      processSubTokens_eq_nil k1 _ _ n1, processSubTokens_eq_nil k2 _ _ n2,
      processSubTokens_eq_nil k3 _ _ n3]
    simp [h1, h2, h3]
  · simp [firstRunText, blockRuns, createListItemParagraph]
    decide
  · simp [firstRunText, blockRuns, createListItemParagraph]
    decide
  · simp [firstRunText, blockRuns, createListItemParagraph]
    decide

/-- C4 witness: the theorem applied to three concrete plain items. -/
theorem ordered_list_start_five_markers_witness :
    processNestedList
        (MToken.list true (some 5)
          [MItem.mk "a" [], MItem.mk "b" [], MItem.mk "c" []]) 0 ""
      = [createListItemParagraph "a" 0 true 5,
         createListItemParagraph "b" 0 true 6,
         createListItemParagraph "c" 0 true 7] :=
  (ordered_list_start_five_markers "a" "b" "c" [] [] []
    (by decide) (by decide) (by decide)
    (by simp) (by simp) (by simp)).1

/-- C5 counterexample: for an unordered parent item the recursive call
does not pass the rendered bullet marker — the source passes the empty
string, which fails its own truthiness guard — so a child item whose
raw text starts with the unordered marker is rendered with the marker
text intact, not stripped and trimmed as the claim states. -/
theorem nested_marker_claim_refuted :
    processNestedList
        (MToken.list false none
          [MItem.mk "parent"
            [MToken.list false none [MItem.mk "• sub" []]]]) 0 ""
      = [createListItemParagraph "parent" 0 false 1,
         createListItemParagraph "• sub" 1 false 1]
    ∧ createListItemParagraph "• sub" 1 false 1
        ≠ createListItemParagraph "sub" 1 false 1 := by
  refine ⟨by decide, by decide⟩

/-- C5 (amended): the recursive call passes the rendered marker only
for ordered items (the digits, a dot and a space); for unordered items
it passes the empty string, which fails the truthiness guard, so marker
stripping happens only under ordered parents: a child item whose raw
text starts with exactly the ordered parent marker is rendered with the
marker prefix removed and the remainder trimmed, while under an
unordered parent the child text is rendered unchanged. -/
theorem nested_marker_strip_behavior (i : Nat)
    (pText cText qText dText : String)
    (hp : trimStr pText ≠ "") (hc : trimStr cText ≠ "")
    (hs : strStartsWith cText (toString i ++ ". ") = true)
    (hq : trimStr qText ≠ "") (hd : trimStr dText ≠ "") :
    processNestedList
        (MToken.list true (some i)
          [MItem.mk pText
            [MToken.list false none [MItem.mk cText []]]]) 0 ""
      = [createListItemParagraph pText 0 true i,
         createListItemParagraph
           (trimStr (strDrop cText (strLen (toString i ++ ". "))))
           1 false 1]
    ∧ processNestedList
        (MToken.list false none
          [MItem.mk qText
            [MToken.list false none [MItem.mk dText []]]]) 0 ""
      = [createListItemParagraph qText 0 false 1,
         createListItemParagraph dText 1 false 1] := by
  constructor
  · simp [processNestedList, processListItems, processSubTokens,
      hp, hc, hs, append_dot_space_ne_empty (toString i)]
  · simp [processNestedList, processListItems, processSubTokens, hq, hd]

/-- C5 witness: the amended theorem applied to an ordered parent with a
duplicated child marker and an unordered parent with a plain child. -/
theorem nested_marker_strip_behavior_witness :
    processNestedList
        (MToken.list true (some 2)
          [MItem.mk "Main"
            [MToken.list false none [MItem.mk "2. sub item" []]]]) 0 ""
      = [createListItemParagraph "Main" 0 true 2,
         createListItemParagraph
           (trimStr (strDrop "2. sub item" (strLen (toString 2 ++ ". "))))
           1 false 1] :=
  (nested_marker_strip_behavior 2 "Main" "2. sub item" "q" "d"
    (by decide) (by decide) (by decide) (by decide) (by decide)).1

/-- C6: heading style routing — depth 1 resolves to the title style,
depth 2 to the section style, depth 3 to the bold-body style, and every
depth of 4 or more to the body style. -/
theorem heading_style_routing :
    getHeadingStyle 1 = STYLES.h1 ∧ getHeadingStyle 2 = STYLES.h2 ∧
    getHeadingStyle 3 = STYLES.h3 ∧
    ∀ depth : Nat, 4 ≤ depth → getHeadingStyle depth = STYLES.normal := by
  refine ⟨rfl, rfl, rfl, ?_⟩
  intro depth h
  match depth, h with
  | n + 4, _ => rfl

/-- C6 witness: the depth-4 fallback instance of the theorem. -/
theorem heading_style_routing_witness : getHeadingStyle 4 = STYLES.normal :=
  heading_style_routing.2.2.2 4 (by decide)

/-- C7: the normalizer is idempotent on inputs none of whose lines
matches the main-item pattern after trimming. -/
theorem preprocess_idempotent (md : String)
    (h : ∀ l ∈ splitLines md, mainListMatch (trimStr l) = none) :
    preprocessMarkdown (preprocessMarkdown md) = preprocessMarkdown md := by
  simp only [preprocessMarkdown_id md h]

/-- C7 witness: the theorem applied to a concrete input with no
main-item line. -/
theorem preprocess_idempotent_witness :
    preprocessMarkdown (preprocessMarkdown "alpha\n- beta\n1. gamma")
      = preprocessMarkdown "alpha\n- beta\n1. gamma" :=
  preprocess_idempotent "alpha\n- beta\n1. gamma" (by decide)

/-- C8: when either required argument of either operation is missing,
the call returns the invalid-params error kind with an empty effect
trace: no file read, no markdown rendering, no directory creation and
no file write happens. -/
theorem missing_arg_invalid_params (readFileFn : String → Option String)
    (mp op c op2 : Option String)
    (hfile : mp = none ∨ op = none) (hcontent : c = none ∨ op2 = none) :
    handleMarkdownToWord readFileFn mp op
      = { result := Except.error ErrCode.invalidParams, trace := [] }
    ∧ handleWriteMarkdownToWord c op2
      = { result := Except.error ErrCode.invalidParams, trace := [] } := by
  constructor
  · rcases hfile with h | h <;> subst h <;>
      simp [handleMarkdownToWord, falsyArg]
  · rcases hcontent with h | h <;> subst h <;>
      simp [handleWriteMarkdownToWord, falsyArg]

/-- C8 witness: both operations with a missing argument. -/
theorem missing_arg_invalid_params_witness :
    handleMarkdownToWord (fun _ => some "") none (some "/tmp/out.docx")
      = { result := Except.error ErrCode.invalidParams, trace := [] }
    ∧ handleWriteMarkdownToWord (some "# hi") none
      = { result := Except.error ErrCode.invalidParams, trace := [] } :=
  missing_arg_invalid_params (fun _ => some "") none (some "/tmp/out.docx")
    (some "# hi") none (Or.inl rfl) (Or.inr rfl)

/-- C9: the conversion pipeline is deterministic — for any tokenizer
function and equal markdown inputs, normalizing, tokenizing and
rendering twice yields syntactically identical documents; the rendered
block sequence is a pure function of the input with no timestamps,
random identifiers or ordering nondeterminism. -/
theorem conversion_deterministic (tokenize : String → List MToken)
    (md1 md2 : String) (h : md1 = md2) :
    createWordDoc (tokenize (preprocessMarkdown md1))
      = createWordDoc (tokenize (preprocessMarkdown md2)) := by
  rw [h]

/-- C9 witness: two runs on the sample input agree. -/
theorem conversion_deterministic_witness :
    createWordDoc ((fun _ => tokenizeSample) (preprocessMarkdown sampleInput))
      = createWordDoc
          ((fun _ => tokenizeSample) (preprocessMarkdown sampleInput)) :=
  conversion_deterministic (fun _ => tokenizeSample)
    sampleInput sampleInput rfl

/-- C10: an argument that is present but equal to the empty string is
treated like a missing argument: both operations fail with the
invalid-params error kind and an empty effect trace, so the pipeline
never runs; in particular inline conversion of the empty markdown
document is impossible. -/
theorem empty_arg_invalid_params (readFileFn : String → Option String)
    (mp op c op2 : Option String)
    (hfile : mp = some "" ∨ op = some "")
    (hcontent : c = some "" ∨ op2 = some "") :
    handleMarkdownToWord readFileFn mp op
      = { result := Except.error ErrCode.invalidParams, trace := [] }
    ∧ handleWriteMarkdownToWord c op2
      = { result := Except.error ErrCode.invalidParams, trace := [] } := by
  constructor
  · rcases hfile with h | h <;> subst h <;>
      simp [handleMarkdownToWord, falsyArg]
  · rcases hcontent with h | h <;> subst h <;>
      simp [handleWriteMarkdownToWord, falsyArg]

/-- C10 witness: empty-string source path, and empty-string markdown
content, are both rejected. -/
theorem empty_arg_invalid_params_witness :
    handleMarkdownToWord (fun _ => some "# hi") (some "") (some "/tmp/o.docx")
      = { result := Except.error ErrCode.invalidParams, trace := [] }
    ∧ handleWriteMarkdownToWord (some "") (some "/tmp/o.docx")
      = { result := Except.error ErrCode.invalidParams, trace := [] } :=
  empty_arg_invalid_params (fun _ => some "# hi") (some "") (some "/tmp/o.docx")
    (some "") (some "/tmp/o.docx") (Or.inl rfl) (Or.inl rfl)

end DocProcessor
